import Mathlib

/-!
Verification development for the CostManagerApp repository.

The embedding below translates the persistence and currency-conversion core
of the application into Lean. JavaScript numbers are modelled as rationals,
JavaScript objects holding exchange rates as association lists from currency
code to rational, and the IndexedDB record collection as a list of stored
records. Fallible operations are modelled with Except, and the console
warnings emitted by the conversion and fetch paths are modelled as explicit
boolean flags in the result values.
-/

namespace CostManager

/-! ### Rate tables and currency conversion

Modelled from convertCurrency in src/src/services/idb.js lines 160-169 and
the identical logic in src/unnamed/part_005 lines 271-290 (which adds the
console warning) and src/app.js lines 488-501.
-/

/-- A JavaScript object mapping currency codes to numeric rates, modelled as
an association list. A code absent from the list models a missing property. -/
def RateTable := List (String × Rat)

instance : DecidableEq RateTable := by
  unfold RateTable
  infer_instance

/-- Property read rates[c] on the rate-table object. -/
def getRate (table : RateTable) (c : String) : Option Rat :=
  table.lookup c

/-- The default exchange rates hard-coded in convertCurrency in
src/src/services/idb.js line 161 and src/unnamed/part_005 line 273. -/
def defaultRates : RateTable :=
  [("USD", 1), ("GBP", 18/10), ("EURO", 7/10), ("ILS", 34/10)]

/-- Result of a conversion call: the returned amount together with whether
the function emitted the missing-rate console warning. -/
structure ConvertResult where
  amount : Rat
  warned : Bool
deriving DecidableEq

/-- Conversion with the warning flag, from convertCurrency in
src/unnamed/part_005 lines 271-290 (same value behaviour as
src/src/services/idb.js lines 160-169 and src/app.js lines 488-501).
The code first returns the amount unchanged when the two codes are equal;
otherwise it tests the JavaScript truthiness of rates[from] and rates[to],
so a missing property and a present rate of 0 both take the degraded branch
that warns and returns the amount; otherwise it pivots through USD. -/
def convertCurrencyR (amount : Rat) (fromCurrency toCurrency : String)
    (table : RateTable) : ConvertResult :=
  if fromCurrency = toCurrency then ⟨amount, false⟩
  else
    match getRate table fromCurrency, getRate table toCurrency with
    | some rateFrom, some rateTo =>
        if rateFrom = 0 ∨ rateTo = 0 then ⟨amount, true⟩
        else ⟨amount / rateFrom * rateTo, false⟩
    | some rateFrom, none =>
        let _ := rateFrom
        ⟨amount, true⟩
    | none, _ => ⟨amount, true⟩

/-- The amount returned by convertCurrency. -/
def convertCurrency (amount : Rat) (fromCurrency toCurrency : String)
    (table : RateTable) : Rat :=
  (convertCurrencyR amount fromCurrency toCurrency table).amount

/-! ### Cost store

Modelled from addCost in src/unnamed/part_004 lines 79-181 (the variant the
spec was written from: it is the only one carrying the enumerated currency
check and the trim checks) and getReport in src/src/services/idb.js lines
74-122, identical to src/unnamed/part_005 lines 132-204.
-/

/-- A JavaScript value as far as the validation code can observe it: a
number, a string, or anything else. -/
inductive JsVal
  | num (q : Rat)
  | str (s : String)
  | other
deriving DecidableEq

/-- The raw input object handed to addCost. -/
structure CostInput where
  sum : JsVal
  currency : JsVal
  category : JsVal
  description : JsVal
deriving DecidableEq

/-- The distinct rejection sites of addCost in src/unnamed/part_004, in the
order the code tests them; each constructor corresponds to one reject call
and its error message. -/
inductive ValidationError
  | costRequired
  | sumNotNumber
  | currencyNotString
  | categoryNotString
  | descriptionNotString
  | currencyNotAllowed
  | sumNotPositive
  | categoryEmpty
  | descriptionEmpty
deriving DecidableEq

/-- The wall-clock date decomposition new Date() is stamped with. -/
structure DateTriple where
  year : Int
  month : Int
  day : Int
deriving DecidableEq

/-- A record as persisted in the costs object store. The auto-assigned id
and the opaque full timestamp are not modelled: no claim mentions them, and
the date is persisted decomposed as year, month and day alongside them. -/
structure StoredCost where
  sum : Rat
  currency : String
  category : String
  description : String
  year : Int
  month : Int
  day : Int
deriving DecidableEq

/-- The subset of the persisted record that addCost resolves with. -/
structure CostOut where
  sum : Rat
  currency : String
  category : String
  description : String
deriving DecidableEq

/-- The currency enumeration of src/unnamed/part_004 line 108. -/
def allowedCurrencies : List String := ["USD", "ILS", "GBP", "EURO"]

/-- The JavaScript String trim call: removes leading and trailing whitespace
characters. Implemented structurally over the character list so that the
kernel can evaluate it on concrete strings. -/
def jsTrim (s : String) : String :=
  String.mk
    (((s.data.dropWhile Char.isWhitespace).reverse.dropWhile
        Char.isWhitespace).reverse)

/-- addCost from src/unnamed/part_004 lines 79-181: the nested matches and
the if chain reproduce the exact order of the reject sites in the code (sum
a number, currency a string, category a string, description a string,
currency in the enumeration, sum positive, category nonempty after trim,
description nonempty after trim); on success the record is stamped with the
current date decomposition and appended to the store, and the four input
fields are resolved back. A rejected input returns only the error, so
nothing is persisted. -/
def addCost (cost : Option CostInput) (today : DateTriple)
    (db : List StoredCost) :
    Except ValidationError (List StoredCost × CostOut) :=
  match cost with
  | none => .error .costRequired
  | some c =>
    match c.sum with
    | .num q =>
      match c.currency with
      | .str cur =>
        match c.category with
        | .str cat =>
          match c.description with
          | .str descr =>
            if allowedCurrencies.contains cur = false then
              .error .currencyNotAllowed
            else if q ≤ 0 then .error .sumNotPositive
            else if jsTrim cat = "" then .error .categoryEmpty
            else if jsTrim descr = "" then .error .descriptionEmpty
            else
              .ok (db ++ [⟨q, cur, cat, descr,
                            today.year, today.month, today.day⟩],
                   ⟨q, cur, cat, descr⟩)
          | _ => .error .descriptionNotString
        | _ => .error .categoryNotString
      | _ => .error .currencyNotString
    | _ => .error .sumNotNumber

/-- Modelled from the claim wording of C2 (and spec section 4.1): the first
failing check wins among, in this order, sum not a number or not positive,
currency not a string, currency not in the enumeration, category empty after
trimming, description empty after trimming. Used only to compare the claimed
check order against the order addCost actually uses. -/
def claimedFirstFailure (c : CostInput) : Option ValidationError :=
  match c.sum with
  | .num q =>
    if q ≤ 0 then some .sumNotPositive
    else
      match c.currency with
      | .str cur =>
        if allowedCurrencies.contains cur = false then
          some .currencyNotAllowed
        else
          match c.category with
          | .str cat =>
            if jsTrim cat = "" then some .categoryEmpty
            else
              match c.description with
              | .str descr =>
                if jsTrim descr = "" then some .descriptionEmpty else none
              | _ => some .descriptionNotString
          | _ => some .categoryNotString
      | _ => some .currencyNotString
  | _ => some .sumNotNumber

/-! ### Report builder

Modelled from getReport in src/src/services/idb.js lines 74-122 and the
identical src/unnamed/part_005 lines 132-204: validate the parameters, read
the whole store, filter to the requested year and month, convert each sum to
the requested currency, and total with a fold.
-/

/-- The nested object produced for the line-item key named Date, holding the
day of the underlying record. -/
structure ReportDate where
  day : Int
deriving DecidableEq

/-- One line item of a report, mirroring the object literal built in
getReport (src/src/services/idb.js lines 101-107): the day of the record is
carried inside the nested Date object, not as a top-level field. -/
structure ReportItem where
  sum : Rat
  currency : String
  category : String
  description : String
  Date : ReportDate
deriving DecidableEq

/-- The property names of the line-item object literal built in getReport,
src/src/services/idb.js lines 101-107 (same literal in src/unnamed/part_005
lines 173-179 and in convertReport of src/unnamed/part_003 lines 99-105). -/
def reportItemKeys : List String :=
  ["sum", "currency", "category", "description", "Date"]

/-- The total object of a report. -/
structure ReportTotal where
  currency : String
  total : Rat
deriving DecidableEq

/-- The report object resolved by getReport. -/
structure Report where
  year : Int
  month : Int
  costs : List ReportItem
  total : ReportTotal
deriving DecidableEq

/-- getReport from src/src/services/idb.js lines 74-122: parameters are
rejected when the month is out of range or the currency is falsy (the empty
string); otherwise every stored record with matching year and month becomes
a line item whose sum is converted to the requested currency when the stored
currency differs, and the total is the fold of the converted sums starting
from 0. -/
def getReport (year month : Int) (currency : String) (db : List StoredCost)
    (rates : RateTable) : Except String Report :=
  if month < 1 ∨ 12 < month ∨ currency = "" then .error "Invalid parameters"
  else
    let monthCosts := db.filter (fun c => c.year == year && c.month == month)
    let reportCosts := monthCosts.map (fun c =>
      let convertedAmount :=
        if c.currency ≠ currency then
          convertCurrency c.sum c.currency currency rates
        else c.sum
      ({ sum := convertedAmount, currency := currency,
         category := c.category, description := c.description,
         Date := ⟨c.day⟩ } : ReportItem))
    let totalAmount := reportCosts.foldl (fun s c => s + c.sum) 0
    .ok { year := year, month := month, costs := reportCosts,
          total := { currency := currency, total := totalAmount } }

/-! ### Monthly aggregation

Modelled from getCostsByMonth in src/unnamed/part_002 lines 94-130: the
currency is validated against the supported enumeration, then the loop asks
the report pipeline for each month 1 to 12 and records the report total,
falling back to 0 for a month whose report fails. The per-month total is
taken from the report builder getReport of this development, which computes
the same converted monthly totals as the service composition in part_002.
-/

/-- The supported currency codes, src/unnamed/part_000 line 12 and the
CURRENCIES constant re-exported by src/unnamed/part_002. -/
def CURRENCIES : List String := ["USD", "ILS", "GBP", "EURO"]

/-- The twelve month labels of the MONTHS constant, src/unnamed/part_002
lines 21-34. -/
def monthLabels : List String :=
  ["January", "February", "March", "April", "May", "June", "July",
   "August", "September", "October", "November", "December"]

/-- One entry pushed into monthlyData by the aggregation loop. -/
structure MonthDatum where
  month : Int
  total : Rat
  currency : String
deriving DecidableEq

/-- The chart payload returned by getCostsByMonth. -/
structure MonthlyChart where
  labels : List String
  data : List Rat
  currency : String
deriving DecidableEq

/-- getCostsByMonth from src/unnamed/part_002 lines 94-130. -/
def getCostsByMonth (year : Int) (currency : String) (db : List StoredCost)
    (rates : RateTable) : Except String MonthlyChart :=
  if CURRENCIES.contains currency = false then
    .error "Currency must be one of: USD, ILS, GBP, EURO"
  else
    let monthlyData : List MonthDatum := (List.range 12).map (fun (i : Nat) =>
      match getReport year ((i : Int) + 1) currency db rates with
      | .ok r => ⟨(i : Int) + 1, r.total.total, currency⟩
      | .error _ => ⟨(i : Int) + 1, 0, currency⟩)
    .ok ⟨monthLabels, monthlyData.map (fun d => d.total), currency⟩

/-! ### Rate fetcher

Modelled from fetchExchangeRates in src/unnamed/part_000 lines 53-92 (the
same function appears in part_001 and part_003). The network interaction is
abstracted into the outcome of the fetch and JSON parse: a network error, a
response that is not ok, a body that fails to parse as JSON, or a parsed
body; in a parsed body the rates object may be absent (reading a currency
property of undefined throws, landing in the catch like every other
failure), and each currency property is individually optional. The whole
function body sits in a try/catch, so no exception escapes its boundary;
the catch logs a console warning, modelled by the warned flag.
-/

/-- The in-memory exchange-rates object of the currency service. -/
structure ExRates where
  USD : Rat
  GBP : Rat
  EURO : Rat
  ILS : Rat
deriving DecidableEq

/-- The rates object of a parsed response body, under the remote naming
convention (EUR, not EURO); each field is absent or a number. -/
structure RatesJson where
  USD : Option Rat
  GBP : Option Rat
  EUR : Option Rat
  ILS : Option Rat
deriving DecidableEq

/-- How the fetch and parse of the rate source can end. -/
inductive FetchResult
  | networkError
  | httpNotOk
  | badJson
  | jsonOk (rates : Option RatesJson)
deriving DecidableEq

/-- The JavaScript expression v or-else d used on each currency field
(src/unnamed/part_000 lines 69-72): an absent field and a present 0 are both
falsy and fall back to the hard-coded default d. -/
def jsOr (v : Option Rat) (d : Rat) : Rat :=
  match v with
  | some x => if x = 0 then d else x
  | none => d

/-- What one call of fetchExchangeRates leaves behind: the exchangeRates
object after the call, the value returned to the caller, and whether the
catch branch logged its warning. -/
structure FetchOutcome where
  table : ExRates
  returned : ExRates
  warned : Bool
deriving DecidableEq

/-- fetchExchangeRates from src/unnamed/part_000 lines 53-92: every failure
path lands in the catch, which warns and returns the current table without
touching it; a parsed body with a rates object always succeeds, building the
new table field by field with jsOr against the hard-coded defaults 1, 0.8,
0.85, 3.5 and replacing the whole exchangeRates object with it. -/
def fetchExchangeRates (current : ExRates) (result : FetchResult) :
    FetchOutcome :=
  match result with
  | .networkError => ⟨current, current, true⟩
  | .httpNotOk => ⟨current, current, true⟩
  | .badJson => ⟨current, current, true⟩
  | .jsonOk none => ⟨current, current, true⟩
  | .jsonOk (some rj) =>
      let rates : ExRates :=
        ⟨jsOr rj.USD 1, jsOr rj.GBP (8/10), jsOr rj.EUR (85/100),
         jsOr rj.ILS (7/2)⟩
      ⟨rates, rates, false⟩

/-! ### Application-level rate fetcher with URL guard

Modelled from CostManagerApp.fetchExchangeRates in src/app.js lines
464-483: when no exchange-rate URL is configured the function logs a warning
and returns immediately, performing no network call; otherwise one fetch
happens, and on success the whole exchangeRates object is replaced by the
parsed response body. The function body has no return statement with a
value, so the caller always receives undefined.
-/

/-- The relevant state of the application object: the configured rate URL
(the empty string models an unset URL, which is falsy) and the raw
exchangeRates object. -/
structure AppState where
  exchangeRateUrl : String
  exchangeRates : RateTable
deriving DecidableEq

/-- How the fetch of the application-level rate URL can end. -/
inductive AppFetchResult
  | networkError
  | httpNotOk
  | badJson
  | jsonOk (rates : RateTable)
deriving DecidableEq

/-- CostManagerApp.fetchExchangeRates from src/app.js lines 464-483. The
result triple carries the state after the call, the value returned to the
caller (always none, the JavaScript undefined, since no path returns a
value), and whether a network call was performed. -/
def appFetchExchangeRates (st : AppState) (result : AppFetchResult) :
    AppState × Option RateTable × Bool :=
  if st.exchangeRateUrl = "" then (st, none, false)
  else
    match result with
    | .jsonOk rates => (⟨st.exchangeRateUrl, rates⟩, none, true)
    | .networkError => (st, none, true)
    | .httpNotOk => (st, none, true)
    | .badJson => (st, none, true)

/-! ### Concrete sample values used by the theorems below -/

/-- The report that getReport resolves with on a store holding one March
2024 record of 100 USD, reported in USD; the total is written as the literal
fold result. -/
def sampleMarchReport : Report :=
  ⟨2024, 3, [⟨100, "USD", "Food", "Lunch", ⟨15⟩⟩], ⟨"USD", 0 + 100⟩⟩

/-- A stale rates table whose GBP value 0.9 differs from the hard-coded GBP
fallback 0.8 of the fetcher. -/
def staleRates : ExRates := ⟨1, 9/10, 85/100, 7/2⟩

/-- A parsed response body whose rates object lacks the GBP field but
carries the three others. -/
def partialRatesJson : RatesJson := ⟨some 1, none, some (85/100), some (7/2)⟩

/-- An application state with no configured exchange-rate URL. -/
def emptyUrlState : AppState := ⟨"", [("USD", 1)]⟩

end CostManager

namespace CostManager

/-- Folding the line-item sums from an initial accumulator is the
accumulator plus the sum of the mapped list. -/
theorem foldl_add_sum (l : List ReportItem) (init : Rat) :
    l.foldl (fun s c => s + c.sum) init =
      init + (l.map ReportItem.sum).sum := by
  induction l generalizing init with
  | nil => simp
  | cons c tl ih => simp [ih, add_assoc]

/-- C5: for every currency code c, every amount a and every rate table,
convertCurrency a c c table returns a exactly: the code returns the amount
before touching the rate table, so there is no round trip through the rates. -/
theorem convert_same_currency_id (a : Rat) (c : String) (table : RateTable) :
    convertCurrency a c c table = a := by
  simp [convertCurrency, convertCurrencyR]

/-- C10: whenever the table carries a rate of 0 for the source or the target
currency (present, not merely absent), convertCurrency returns the original
amount unchanged: the zero rate is falsy in JavaScript, so the guard returns
before the division by rates[from] is ever evaluated. -/
theorem convert_zero_rate_returns_amount (a : Rat) (f t : String)
    (table : RateTable)
    (h : getRate table f = some 0 ∨ getRate table t = some 0) :
    convertCurrency a f t table = a := by
  unfold convertCurrency convertCurrencyR
  by_cases hft : f = t
  · simp [hft]
  · simp only [if_neg hft]
    rcases h with h | h
    · rw [h]
      rcases hto : getRate table t with _ | rt
      · simp
      · simp
    · rcases hfrom : getRate table f with _ | rf
      · simp
      · rw [h]
        simp

/-- Concrete instance for convert_zero_rate_returns_amount: a table carrying
ILS at rate 0 makes the conversion return the original 100. -/
theorem convert_zero_rate_returns_amount_witness :
    convertCurrency 100 "ILS" "EURO" [("ILS", 0), ("EURO", 85/100)] = 100 :=
  convert_zero_rate_returns_amount 100 "ILS" "EURO"
    [("ILS", 0), ("EURO", 85/100)] (Or.inl (by decide))

/-- C3 counterexample: with a table in which the ILS rate is present but 0,
the code returns the original amount 100 while the claimed USD-pivot formula
amount / rates[from] * rates[to] does not equal 100, so the claim fails for
a pair of distinct codes whose rates are both present in the table. -/
theorem convert_formula_counterexample :
    convertCurrency 100 "ILS" "EURO" [("ILS", 0), ("EURO", 17/20)] = 100 ∧
    100 / ((getRate [("ILS", 0), ("EURO", 17/20)] "ILS").getD 0) *
      ((getRate [("ILS", 0), ("EURO", 17/20)] "EURO").getD 0) ≠ 100 := by
  constructor
  · decide
  · have h1 : getRate [("ILS", (0 : Rat)), ("EURO", 17/20)] "ILS" = some 0 :=
      rfl
    have h2 : getRate [("ILS", (0 : Rat)), ("EURO", 17/20)] "EURO" =
        some (17/20) := rfl
    rw [h1, h2]
    norm_num

/-- C3 amended: for distinct codes whose rates are both present in the table
and nonzero, convertCurrency pivots through USD: it returns
amount / rates[from] * rates[to]. -/
theorem convert_distinct_nonzero_formula (amount rateFrom rateTo : Rat)
    (f t : String) (table : RateTable) (hft : f ≠ t)
    (hf : getRate table f = some rateFrom) (hf0 : rateFrom ≠ 0)
    (ht : getRate table t = some rateTo) (ht0 : rateTo ≠ 0) :
    convertCurrency amount f t table = amount / rateFrom * rateTo := by
  unfold convertCurrency convertCurrencyR
  simp only [if_neg hft, hf, ht]
  simp [hf0, ht0]

/-- Scenario B from the spec as witness for convert_distinct_nonzero_formula:
with rates USD 1, ILS 3.5, EURO 0.85, converting 100 ILS to EURO yields
100 / 3.5 * 0.85. -/
theorem convert_distinct_nonzero_formula_witness :
    convertCurrency 100 "ILS" "EURO"
      [("USD", 1), ("ILS", 7/2), ("EURO", 17/20)] = 100 / (7/2) * (17/20) :=
  convert_distinct_nonzero_formula 100 (7/2) (17/20) "ILS" "EURO"
    [("USD", 1), ("ILS", 7/2), ("EURO", 17/20)]
    (by decide) rfl (by norm_num) rfl (by norm_num)

/-- C6 counterexample: a request whose table lacks a rate for the source and
the target currency (the same unknown code on both sides) returns the
original amount but surfaces no warning, because the equal-codes early return
runs before the missing-rate check: so the claim that every such request
surfaces a warning is false. -/
theorem convert_missing_rate_counterexample :
    getRate [("USD", 1)] "XYZ" = none ∧
    convertCurrencyR 5 "XYZ" "XYZ" [("USD", 1)] = ⟨5, false⟩ := by
  constructor
  · decide
  · decide

/-- C6 amended: whenever the table lacks a rate for the source or the target
currency, convertCurrency returns the original amount unconverted and never
throws; the missing-rate console warning is surfaced exactly when the source
and target codes are distinct (for equal codes the function returns before
consulting the table and stays silent). -/
theorem convert_missing_rate_returns_amount (a : Rat) (f t : String)
    (table : RateTable)
    (h : getRate table f = none ∨ getRate table t = none) :
    (convertCurrencyR a f t table).amount = a ∧
    ((convertCurrencyR a f t table).warned = true ↔ f ≠ t) := by
  unfold convertCurrencyR
  by_cases hft : f = t
  · simp [hft]
  · simp only [if_neg hft]
    rcases h with h | h
    · rw [h]
      simp [hft]
    · rcases hf : getRate table f with _ | rf
      · simp [hft]
      · rw [h]
        simp [hft]

/-- Concrete instance for convert_missing_rate_returns_amount: converting 5
from the unknown code XYZ to USD over a table that only carries USD returns
5 and warns. -/
theorem convert_missing_rate_returns_amount_witness :
    (convertCurrencyR 5 "XYZ" "USD" [("USD", 1)]).amount = 5 ∧
    ((convertCurrencyR 5 "XYZ" "USD" [("USD", 1)]).warned = true ↔
      "XYZ" ≠ "USD") :=
  convert_missing_rate_returns_amount 5 "XYZ" "USD" [("USD", 1)]
    (Or.inl (by decide))

/-- C2 counterexample: on the input with sum -5 and currency XYZ the claimed
check order reports the nonpositive sum as the first failure, but addCost
actually rejects with the currency-enumeration error, because the code tests
currency membership before it tests that the sum is positive. -/
theorem addCost_order_counterexample :
    addCost (some ⟨.num (-5), .str "XYZ", .str "Food", .str "Lunch"⟩)
        ⟨2024, 3, 15⟩ [] = .error .currencyNotAllowed ∧
    claimedFirstFailure ⟨.num (-5), .str "XYZ", .str "Food", .str "Lunch"⟩ =
      some .sumNotPositive ∧
    ValidationError.currencyNotAllowed ≠ ValidationError.sumNotPositive := by
  refine ⟨rfl, ?_, by decide⟩
  have hneg : ((-5 : Rat)) ≤ 0 := by norm_num
  simp [claimedFirstFailure, hneg]

/-- C2 amended: addCost rejects, persisting nothing, exactly when the input
violates a field constraint, and accepts every input passing all the checks,
including the boundary sum 0.01; the checks run in the order of the code
(sum a number, currency a string, category a string, description a string,
currency in the enumeration, sum positive, category nonempty after trimming,
description nonempty after trimming), with the first failure winning. -/
theorem addCost_accepts_iff :
    (∀ (c : CostInput) (today : DateTriple) (db : List StoredCost),
      (∃ r, addCost (some c) today db = .ok r) ↔
        ((∃ q, c.sum = .num q ∧ 0 < q) ∧
         (∃ cur, c.currency = .str cur ∧
            allowedCurrencies.contains cur = true) ∧
         (∃ cat, c.category = .str cat ∧ jsTrim cat ≠ "") ∧
         (∃ descr, c.description = .str descr ∧ jsTrim descr ≠ ""))) ∧
    (∃ r, addCost (some ⟨.num (1/100), .str "USD", .str "Food",
        .str "Lunch"⟩) ⟨2024, 3, 15⟩ [] = .ok r) := by
  have main : ∀ (c : CostInput) (today : DateTriple) (db : List StoredCost),
      (∃ r, addCost (some c) today db = .ok r) ↔
        ((∃ q, c.sum = .num q ∧ 0 < q) ∧
         (∃ cur, c.currency = .str cur ∧
            allowedCurrencies.contains cur = true) ∧
         (∃ cat, c.category = .str cat ∧ jsTrim cat ≠ "") ∧
         (∃ descr, c.description = .str descr ∧ jsTrim descr ≠ "")) := by
    intro c today db
    obtain ⟨s, cur, cat, descr⟩ := c
    cases s with
    | num q =>
      cases cur with
      | str curs =>
        cases cat with
        | str cats =>
          cases descr with
          | str descrs =>
            by_cases h1 : curs ∈ allowedCurrencies
            · by_cases h2 : q ≤ 0
              · simp [addCost, h1, h2, not_lt.mpr h2]
              · by_cases h3 : jsTrim cats = ""
                · simp [addCost, h1, h2, h3]
                · by_cases h4 : jsTrim descrs = ""
                  · simp [addCost, h1, h2, h3, h4]
                  · simp [addCost, h1, h2, h3, h4, not_le.mp h2]
            · simp [addCost, h1]
          | num _ => simp [addCost]
          | other => simp [addCost]
        | num _ => simp [addCost]
        | other => simp [addCost]
      | num _ => simp [addCost]
      | other => simp [addCost]
    | str _ => simp [addCost]
    | other => simp [addCost]
  refine ⟨main, ?_⟩
  exact (main ⟨.num (1/100), .str "USD", .str "Food", .str "Lunch"⟩
      ⟨2024, 3, 15⟩ []).mpr
    ⟨⟨1/100, rfl, by norm_num⟩, ⟨"USD", rfl, by decide⟩,
     ⟨"Food", rfl, by decide⟩, ⟨"Lunch", rfl, by decide⟩⟩

/-- C1: every report resolved by getReport has total.total exactly equal to
the sum of the sum fields of its line items (the fold from 0 over the
converted amounts, with no other contribution), and total.currency equal to
the requested target currency. -/
theorem report_total_is_sum (year month : Int) (currency : String)
    (db : List StoredCost) (rates : RateTable) (r : Report)
    (h : getReport year month currency db rates = .ok r) :
    r.total.total = (r.costs.map ReportItem.sum).sum ∧
    r.total.currency = currency := by
  unfold getReport at h
  split at h
  · simp at h
  · simp only [Except.ok.injEq] at h
    subst h
    constructor
    · simp [foldl_add_sum]
    · rfl

/-- Concrete instance for report_total_is_sum: a March 2024 store with one
100 USD record reported in USD totals 100 in USD. -/
theorem report_total_is_sum_witness :
    sampleMarchReport.total.total =
      (sampleMarchReport.costs.map ReportItem.sum).sum ∧
    sampleMarchReport.total.currency = "USD" :=
  report_total_is_sum 2024 3 "USD" [⟨100, "USD", "Food", "Lunch", 2024, 3, 15⟩]
    defaultRates sampleMarchReport rfl

/-- C9 counterexample: the line-item object literal built by getReport has
no property named day: the day of the record is nested inside the property
named Date, so day is not a top-level field of the line item. -/
theorem report_item_day_not_top_level :
    ("day" ∈ reportItemKeys) = False ∧ ("Date" ∈ reportItemKeys) = True := by
  constructor
  · simp [reportItemKeys]
  · simp [reportItemKeys]

/-- C9 amended: every line item of a report built for target currency T has
its currency field rewritten to T and comes from a stored record of the
requested period whose category and description it preserves; the day of
that record is preserved nested in the Date object of the line item (not as
a top-level day field). -/
theorem report_items_fields (year month : Int) (currency : String)
    (db : List StoredCost) (rates : RateTable) (r : Report)
    (h : getReport year month currency db rates = .ok r) :
    ∀ item ∈ r.costs, item.currency = currency ∧
      ∃ c, c ∈ db ∧ c.year = year ∧ c.month = month ∧
        item.category = c.category ∧ item.description = c.description ∧
        item.Date.day = c.day := by
  unfold getReport at h
  split at h
  · simp at h
  · simp only [Except.ok.injEq] at h
    subst h
    intro item hitem
    simp only [List.mem_map] at hitem
    obtain ⟨c, hc, hci⟩ := hitem
    rw [List.mem_filter] at hc
    obtain ⟨hcdb, hcp⟩ := hc
    have hy : c.year = year ∧ c.month = month := by
      simpa using hcp
    subst hci
    exact ⟨rfl, c, hcdb, hy.1, hy.2, rfl, rfl, rfl⟩

/-- Concrete instance for report_items_fields: the single line item of the
March 2024 USD report keeps the category Food, the description Lunch and the
day 15 nested under Date, with currency USD. -/
theorem report_items_fields_witness :
    (⟨100, "USD", "Food", "Lunch", ⟨15⟩⟩ : ReportItem).currency = "USD" ∧
    ∃ c, c ∈ [(⟨100, "USD", "Food", "Lunch", 2024, 3, 15⟩ : StoredCost)] ∧
      c.year = 2024 ∧ c.month = 3 ∧
      (⟨100, "USD", "Food", "Lunch", ⟨15⟩⟩ : ReportItem).category =
        c.category ∧
      (⟨100, "USD", "Food", "Lunch", ⟨15⟩⟩ : ReportItem).description =
        c.description ∧
      (⟨100, "USD", "Food", "Lunch", ⟨15⟩⟩ : ReportItem).Date.day = c.day :=
  report_items_fields 2024 3 "USD"
    [⟨100, "USD", "Food", "Lunch", 2024, 3, 15⟩] defaultRates
    ⟨2024, 3, [⟨100, "USD", "Food", "Lunch", ⟨15⟩⟩], ⟨"USD", 0 + 100⟩⟩ rfl
    ⟨100, "USD", "Food", "Lunch", ⟨15⟩⟩ (by simp)

/-- For a month between 1 and 12 and a truthy currency string, getReport
never rejects: the parameter check passes and the report is resolved. -/
theorem getReport_ok_of_valid (year month : Int) (currency : String)
    (db : List StoredCost) (rates : RateTable)
    (h1 : 1 ≤ month) (h2 : month ≤ 12) (h3 : currency ≠ "") :
    ∃ r, getReport year month currency db rates = .ok r := by
  unfold getReport
  rw [if_neg]
  · exact ⟨_, rfl⟩
  · push_neg
    exact ⟨by omega, by omega, h3⟩

/-- A period with no matching record yields a report whose total is 0. -/
theorem getReport_empty_month_total (year month : Int) (currency : String)
    (db : List StoredCost) (rates : RateTable) (r : Report)
    (h : getReport year month currency db rates = .ok r)
    (hempty : ∀ c ∈ db, ¬(c.year = year ∧ c.month = month)) :
    r.total.total = 0 := by
  unfold getReport at h
  split at h
  · simp at h
  · simp only [Except.ok.injEq] at h
    subst h
    have hfil : db.filter (fun c => c.year == year && c.month == month)
        = [] := by
      rw [List.filter_eq_nil_iff]
      intro c hc
      simpa using hempty c hc
    simp [hfil]

/-- C7: for every year and every supported target currency, the full-year
aggregation succeeds and returns exactly 12 totals, the entry at index i
being the report total of month i+1 (month order), and a month with zero
matching records contributes the value 0 rather than an error or an omitted
entry. -/
theorem monthly_aggregation_twelve_entries (year : Int) (currency : String)
    (db : List StoredCost) (rates : RateTable)
    (hcur : currency ∈ CURRENCIES) :
    ∃ out, getCostsByMonth year currency db rates = .ok out ∧
      out.data.length = 12 ∧
      (∀ i : Nat, i < 12 → ∃ r,
        getReport year ((i : Int) + 1) currency db rates = .ok r ∧
        out.data.getD i 0 = r.total.total) ∧
      (∀ i : Nat, i < 12 →
        (∀ c ∈ db, ¬(c.year = year ∧ c.month = (i : Int) + 1)) →
        out.data.getD i 0 = 0) := by
  have hne : currency ≠ "" := by
    intro h
    subst h
    simp [CURRENCIES] at hcur
  have hok : ∀ i : Nat, i < 12 → ∃ r,
      getReport year ((i : Int) + 1) currency db rates = .ok r := by
    intro i hi
    exact getReport_ok_of_valid year ((i : Int) + 1) currency db rates
      (by omega) (by omega) hne
  unfold getCostsByMonth
  rw [if_neg (by simp [hcur])]
  refine ⟨_, rfl, ?_, ?_, ?_⟩
  · rw [List.length_map, List.length_map, List.length_range]
  · intro i hi
    obtain ⟨r, hr⟩ := hok i hi
    refine ⟨r, hr, ?_⟩
    rw [List.getD_eq_getElem _ _
      (by rw [List.length_map, List.length_map, List.length_range]; exact hi)]
    rw [List.getElem_map, List.getElem_map, List.getElem_range, hr]
  · intro i hi hempty
    obtain ⟨r, hr⟩ := hok i hi
    rw [List.getD_eq_getElem _ _
      (by rw [List.length_map, List.length_map, List.length_range]; exact hi)]
    rw [List.getElem_map, List.getElem_map, List.getElem_range, hr]
    exact getReport_empty_month_total year ((i : Int) + 1) currency db rates
      r hr hempty

/-- Concrete instance for monthly_aggregation_twelve_entries: over an empty
store the 2024 USD aggregation yields twelve zero entries. -/
theorem monthly_aggregation_twelve_entries_witness :
    ∃ out, getCostsByMonth 2024 "USD" [] defaultRates = .ok out ∧
      out.data.length = 12 ∧
      (∀ i : Nat, i < 12 → ∃ r,
        getReport 2024 ((i : Int) + 1) "USD" [] defaultRates = .ok r ∧
        out.data.getD i 0 = r.total.total) ∧
      (∀ i : Nat, i < 12 →
        (∀ c ∈ ([] : List StoredCost),
          ¬(c.year = 2024 ∧ c.month = (i : Int) + 1)) →
        out.data.getD i 0 = 0) :=
  monthly_aggregation_twelve_entries 2024 "USD" [] defaultRates (by decide)

/-- C4 counterexample: a fetch that succeeds with a rates object lacking the
GBP field does not leave the existing table unchanged: the fetcher builds a
complete new table, substituting the hard-coded default 0.8 for the missing
GBP field, and replaces the whole table with it, mutating the stale GBP
value 0.9. -/
theorem fetch_missing_field_mutates_table :
    (fetchExchangeRates staleRates
        (.jsonOk (some partialRatesJson))).table.GBP = 8/10 ∧
    staleRates.GBP = 9/10 ∧
    (fetchExchangeRates staleRates
        (.jsonOk (some partialRatesJson))).table ≠ staleRates := by
  refine ⟨rfl, rfl, ?_⟩
  intro h
  have hGBP : ((8 : Rat)/10) = 9/10 := congrArg ExRates.GBP h
  norm_num at hGBP

/-- C4 amended: on a network error, a non-ok HTTP status, a malformed JSON
body, or a body without a rates object, fetchExchangeRates leaves the
existing table completely unchanged, returns the last-known table, and only
logs a warning (the catch absorbs every exception); a body whose rates
object merely lacks individual currency fields is not such a failure: the
fetch then succeeds and replaces the table, filling the missing fields with
the hard-coded defaults. -/
theorem fetch_failure_keeps_table (current : ExRates) (result : FetchResult)
    (h : result = .networkError ∨ result = .httpNotOk ∨ result = .badJson ∨
      result = .jsonOk none) :
    fetchExchangeRates current result = ⟨current, current, true⟩ := by
  rcases h with h | h | h | h <;> subst h <;> rfl

/-- Concrete instance for fetch_failure_keeps_table: a malformed JSON body
leaves the stale table in place and returns it with a warning. -/
theorem fetch_failure_keeps_table_witness :
    fetchExchangeRates staleRates .badJson =
      ⟨staleRates, staleRates, true⟩ :=
  fetch_failure_keeps_table staleRates .badJson (Or.inr (Or.inr (Or.inl rfl)))

/-- C8 counterexample: with an empty configured URL the application fetcher
performs no network call and leaves the state unchanged, but it returns
undefined (none), not the current rate table, so the claim that it returns
the table is false. -/
theorem fetch_empty_url_counterexample :
    appFetchExchangeRates emptyUrlState .networkError =
      (emptyUrlState, none, false) ∧
    (appFetchExchangeRates emptyUrlState .networkError).2.1 ≠
      some emptyUrlState.exchangeRates := by
  refine ⟨rfl, ?_⟩
  intro h
  exact Option.noConfusion h

/-- C8 amended: whenever the configured exchange-rate URL is empty,
CostManagerApp.fetchExchangeRates performs no network call, leaves the
application state (including the rate table) unchanged, and returns without
a value. -/
theorem fetch_empty_url_no_call (st : AppState) (result : AppFetchResult)
    (h : st.exchangeRateUrl = "") :
    appFetchExchangeRates st result = (st, none, false) := by
  unfold appFetchExchangeRates
  rw [if_pos h]

/-- Concrete instance for fetch_empty_url_no_call at the empty-URL state. -/
theorem fetch_empty_url_no_call_witness :
    appFetchExchangeRates emptyUrlState .badJson =
      (emptyUrlState, none, false) :=
  fetch_empty_url_no_call emptyUrlState .badJson rfl

end CostManager
